import Mathlib

/-!
Verification of the slide layout reconstruction and export packer
(`exportPresentation` layout engine, `pushGroup`, `addMeasuredElement`).

The packer takes a list of element measurements (pixel space), buckets them
into columns, groups them into paragraphs, sorts them into reading order,
places them with collision resolution in inch space, and emits placement
commands.  Pixel/inch geometry is modelled with exact rationals (the source
uses JS doubles; all operations here are +, -, *, /, comparisons, so the
rational model is the exact-arithmetic idealisation).  JS's stable
`Array.prototype.sort` is modelled as a stable insertion sort
(`List.insertionSort`).
-/

namespace Packer

set_option allowUnsafeReducibility true

attribute [local semireducible] Rat.add Rat.sub Rat.mul Rat.inv

/-- `styles` record of one measured element (computed CSS strings). -/
structure Styles where
  fontSize : String
  fontWeight : String
  color : String
  textAlign : String
deriving DecidableEq, Repr

/-- One measured visual element (`ElementMeasurement` in the source). -/
structure ElementMeasurement where
  index : Nat
  type : String
  x : ℚ
  y : ℚ
  width : ℚ
  height : ℚ
  text : String
  styles : Styles
deriving DecidableEq, Repr

/-- A run of measurements forming one visual paragraph (`RenderGroup`). -/
structure RenderGroup where
  elements : List ElementMeasurement
  x : ℚ
  y : ℚ
  w : ℚ
  hWeb : ℚ
deriving DecidableEq, Repr

/-- Resolved footprint of one group in inches (`PlacedRect`). -/
structure PlacedRect where
  x : ℚ
  y : ℚ
  w : ℚ
  h : ℚ
deriving DecidableEq, Repr

/-- Theme colors (`ThemeColors`), each a hex string. -/
structure ThemeColors where
  primary : String
  secondary : String
  accent : String
  background : String
  text : String
  heading : String
  muted : String
deriving DecidableEq, Repr

/-- Optional per-field theme (`Partial<ThemeColors>` in the source). -/
structure PartialTheme where
  primary : Option String
  secondary : Option String
  accent : Option String
  background : Option String
  text : Option String
  heading : Option String
  muted : Option String
deriving DecidableEq, Repr

/-- JS `a || b` on an optional string: `b` when absent or empty (falsy). -/
def orDefault (o : Option String) (d : String) : String :=
  match o with
  | none => d
  | some s => if s = "" then d else s

/-- Theme resolution with the source's defaults (`themeColors` construction). -/
def resolveTheme (t : PartialTheme) : ThemeColors where
  primary := orDefault t.primary "3B82F6"
  secondary := orDefault t.secondary "1F2937"
  accent := orDefault t.accent "60A5FA"
  background := orDefault t.background "FFFFFF"
  text := orDefault t.text "1F2937"
  heading := orDefault t.heading "111827"
  muted := orDefault t.muted "6B7280"

/-- `SLIDE_WIDTH_INCHES`. -/
def SLIDE_WIDTH_INCHES : ℚ := 10

/-- `SLIDE_HEIGHT_INCHES`. -/
def SLIDE_HEIGHT_INCHES : ℚ := 5625 / 1000

/-- `RENDER_WIDTH_PX`. -/
def RENDER_WIDTH_PX : ℚ := 1920

/-- `RENDER_HEIGHT_PX`. -/
def RENDER_HEIGHT_PX : ℚ := 1080

/-- `pxToInchX`. -/
def pxToInchX (px : ℚ) : ℚ := px / RENDER_WIDTH_PX * SLIDE_WIDTH_INCHES

/-- `pxToInchY`. -/
def pxToInchY (px : ℚ) : ℚ := px / RENDER_HEIGHT_PX * SLIDE_HEIGHT_INCHES

/-- `ignorableTypes` (structural types, filtered out before bucketing). -/
def ignorableTypes : List String := ["column", "column_group", "bullets"]

/-- `textTypes` (the text-bearing type set of the layout engine). -/
def textTypes : List String := ["h1", "h2", "h3", "h4", "p", "text", "bullet-item"]

/-- One column bucket: anchor x plus its elements. -/
structure Column where
  x : ℚ
  eles : List ElementMeasurement
deriving DecidableEq, Repr

/-- JS `Math.abs` on a rational. -/
def qabs (a : ℚ) : ℚ := if a < 0 then -a else a

/-- JS `Math.max` on two rationals. -/
def qmax (a b : ℚ) : ℚ := if a ≤ b then b else a

theorem qabs_eq_abs (a : ℚ) : qabs a = |a| := by
  unfold qabs
  by_cases h : a < 0
  · rw [if_pos h, abs_of_neg h]
  · rw [if_neg h, abs_of_nonneg (not_lt.mp h)]

theorem qmax_eq_max (a b : ℚ) : qmax a b = max a b := by
  unfold qmax
  by_cases h : a ≤ b
  · rw [if_pos h, max_eq_right h]
  · rw [if_neg h, max_eq_left (le_of_not_le h)]

theorem qabs_sub_comm (a b : ℚ) : qabs (a - b) = qabs (b - a) := by
  rw [qabs_eq_abs, qabs_eq_abs, abs_sub_comm]

/-- `columns.find(c => Math.abs(c.x - m.x) < 50)` followed by a push:
append `m` to the first bucket within 50px, else open a new bucket. -/
def insertIntoColumns (m : ElementMeasurement) : List Column → List Column
  | [] => [⟨m.x, [m]⟩]
  | c :: cs =>
    if qabs (c.x - m.x) < 50 then ⟨c.x, c.eles ++ [m]⟩ :: cs
    else c :: insertIntoColumns m cs

/-- The Column Bucketer (step 1 of the layout engine). -/
def bucket (ms : List ElementMeasurement) : List Column :=
  ms.foldl (fun cols m => if m.type ∈ ignorableTypes then cols else insertIntoColumns m cols) []

/-- `["p", "text", "bullet-item"]`, the filter used in `pushGroup` for the
reference-width members. -/
def pTypes : List String := ["p", "text", "bullet-item"]

/-- `Math.max(...)` over a list of rationals (source lists are nonempty). -/
def listMax : List ℚ → ℚ
  | [] => 0
  | x :: xs => xs.foldl qmax x

/-- `pushGroup`: build the `RenderGroup` pushed to the queue for a run of
elements (`none` for an empty run, which the source returns early on). -/
def mkGroup : List ElementMeasurement → Option RenderGroup
  | [] => none
  | first :: rest =>
    let es := first :: rest
    let lastEl := es.getLast (List.cons_ne_nil first rest)
    let pEs := es.filter (fun i => i.type ∈ pTypes)
    let refEs := if pEs.isEmpty then es else pEs
    let maxW := listMax (refEs.map (fun i => i.width))
    let hWeb := (lastEl.y + lastEl.height) - first.y
    some { elements := es, x := first.x, y := first.y, w := maxW, hWeb := qmax hWeb 20 }

/-- Append the group built from `cur` (if any) to the queue. -/
def flushInto (cur : List ElementMeasurement) (q : List RenderGroup) : List RenderGroup :=
  match mkGroup cur with
  | some g => q ++ [g]
  | none => q

/-- The Paragraph Grouper walk over one column's y-sorted elements,
carrying the open group `cur` and the queue `q` (step 2 of the engine). -/
def walk : List ElementMeasurement → List ElementMeasurement → List RenderGroup → List RenderGroup
  | [], cur, q => flushInto cur q
  | m :: rest, cur, q =>
    if m.type ∈ textTypes then
      match cur.getLast? with
      | none => walk rest [m] q
      | some lastM =>
        if qabs (m.width - lastM.width) < 100 then walk rest (cur ++ [m]) q
        else walk rest [m] (flushInto cur q)
    else
      walk rest [] (flushInto [m] (flushInto cur q))

/-- Ordering used for `col.eles.sort((a, b) => a.y - b.y)`. -/
def eleLe (a b : ElementMeasurement) : Prop := a.y ≤ b.y

instance : DecidableRel eleLe := fun a b => inferInstanceAs (Decidable (a.y ≤ b.y))

/-- Per-column grouping: sort the bucket by `y` (stably), then walk it. -/
def groupColumn (c : Column) : List RenderGroup :=
  walk (c.eles.insertionSort eleLe) [] []

/-- The comparator of the Global Sequencer,
`(a, b) => Math.abs(a.y - b.y) < 10 ? a.x - b.x : a.y - b.y`, as the
relation `cmp(a, b) <= 0` (i.e. "`a` may stay before `b`" for a stable sort). -/
def groupLe (a b : RenderGroup) : Prop :=
  if qabs (a.y - b.y) < 10 then a.x ≤ b.x else a.y ≤ b.y

instance : DecidableRel groupLe := fun a b => by
  unfold groupLe; exact inferInstance

/-- The full render queue for a measurement list: bucket, group each column
in order, collect, then sort with the Global Sequencer's comparator. -/
def renderQueue (ms : List ElementMeasurement) : List RenderGroup :=
  (((bucket ms).map groupColumn).flatten).insertionSort groupLe

/-- The axis-aligned intersection test of the Collision Resolver
(`xOverlap && yOverlap`, open comparisons). -/
def overlap (c r : PlacedRect) : Bool :=
  (decide (c.x < r.x + r.w) && decide (c.x + c.w > r.x)) &&
    (decide (c.y < r.y + r.h) && decide (c.y + c.h > r.y))

/-- One iteration of the inner `for (const rect of placedRects)` body:
on intersection push the candidate's `y` to `rect.y + rect.h + 0.1` (when
that moves it down) and flag that an overlap was found. -/
def passStep (st : PlacedRect × Bool) (r : PlacedRect) : PlacedRect × Bool :=
  if overlap st.1 r then
    let newY := r.y + r.h + 1 / 10
    if newY > st.1.y then ({ st.1 with y := newY }, true) else st
  else st

/-- One full pass of the inner `for` loop over all placed rectangles,
starting with `overlapFound = false`. -/
def passOnce (placed : List PlacedRect) (c : PlacedRect) : PlacedRect × Bool :=
  placed.foldl passStep (c, false)

/-- The `while (overlapFound && attempts < 10)` loop; `fuel` is the number
of remaining adjustment attempts (10 initially).  Returns the final
candidate and whether the attempt bound was exhausted with an overlap
still outstanding. -/
def resolveStep (placed : List PlacedRect) : Nat → PlacedRect → PlacedRect × Bool
  | 0, c => (c, true)
  | fuel + 1, c =>
    let p := passOnce placed c
    if p.2 then resolveStep placed fuel p.1
    else (p.1, false)

/-- Place one group: convert its pixel anchor and size to inches, estimate
its occupied height with the 1.6 safety multiplier, then resolve collisions
against the already placed rectangles. -/
def placeGroup (placed : List PlacedRect) (g : RenderGroup) : PlacedRect × Bool :=
  let c : PlacedRect :=
    { x := pxToInchX g.x
      y := pxToInchY g.y
      w := pxToInchX g.w
      h := pxToInchY g.hWeb * (8 / 5) }
  resolveStep placed 10 c

/-- One step of the Collision Resolver fold: place the group against the
rectangles accumulated so far and register the result (the
`if (!first) continue` guard skips empty groups). -/
def placeFold (acc : List (PlacedRect × Bool)) (g : RenderGroup) : List (PlacedRect × Bool) :=
  match g.elements with
  | [] => acc
  | _ :: _ => acc ++ [placeGroup (acc.map Prod.fst) g]

/-- The Collision Resolver over the whole sequenced queue: thread the
placed-rectangle list through the groups, recording for each placed
rectangle whether its placement exhausted the attempt bound. -/
def placeAll (groups : List RenderGroup) : List (PlacedRect × Bool) :=
  groups.foldl placeFold []

/-- Take the maximal leading run of decimal digits off a character list. -/
def takeDigits : List Char → List Char × List Char
  | [] => ([], [])
  | c :: cs =>
    if c.isDigit then
      let p := takeDigits cs
      (c :: p.1, p.2)
    else ([], c :: cs)

/-- Decimal value of a digit run. -/
def digitsToNat (ds : List Char) : Nat :=
  ds.foldl (fun n c => n * 10 + (c.toNat - 48)) 0

/-- Drop leading whitespace (JS `\s`). -/
def skipWs : List Char → List Char
  | [] => []
  | c :: cs => if c.isWhitespace then skipWs cs else c :: cs

/-- The regex `/(\d+)/` applied by `.match`: first digit run anywhere in
the string (used on `styles.fontSize`). -/
def firstDigits : List Char → Option Nat
  | [] => none
  | c :: cs =>
    if c.isDigit then some (digitsToNat (c :: (takeDigits cs).1))
    else firstDigits cs

/-- JS `parseInt(s, 10)`: skip whitespace, optional sign, then a digit run;
`none` models `NaN` (used on `styles.fontWeight`). -/
def jsParseInt (s : String) : Option ℤ :=
  match skipWs s.data with
  | '-' :: rest =>
    let p := takeDigits rest
    if p.1.isEmpty then none else some (-(digitsToNat p.1 : ℤ))
  | '+' :: rest =>
    let p := takeDigits rest
    if p.1.isEmpty then none else some (digitsToNat p.1 : ℤ)
  | cs =>
    let p := takeDigits cs
    if p.1.isEmpty then none else some (digitsToNat p.1 : ℤ)

/-- Match the regex `rgb\((\d+),\s*(\d+),\s*(\d+)\)` at the head of the
character list. -/
def matchRgbAt (cs : List Char) : Option (Nat × Nat × Nat) :=
  match cs with
  | 'r' :: 'g' :: 'b' :: '(' :: rest =>
    let p1 := takeDigits rest
    if p1.1.isEmpty then none else
    match p1.2 with
    | ',' :: r2 =>
      let p2 := takeDigits (skipWs r2)
      if p2.1.isEmpty then none else
      match p2.2 with
      | ',' :: r4 =>
        let p3 := takeDigits (skipWs r4)
        if p3.1.isEmpty then none else
        match p3.2 with
        | ')' :: _ => some (digitsToNat p1.1, digitsToNat p2.1, digitsToNat p3.1)
        | _ => none
      | _ => none
    | _ => none
  | _ => none

/-- Regex search: try the match at each successive start position. -/
def searchRgb : List Char → Option (Nat × Nat × Nat)
  | [] => none
  | c :: cs =>
    match matchRgbAt (c :: cs) with
    | some v => some v
    | none => searchRgb cs

/-- `styles.color.match(/rgb\((\d+),\s*(\d+),\s*(\d+)\)/)`. -/
def parseRgb (s : String) : Option (Nat × Nat × Nat) := searchRgb s.data

/-- JS `(n).toString(16).padStart(2, "0")` for a channel value. -/
def hex2 (n : Nat) : String :=
  let s := (Nat.toDigits 16 n).asString
  if s.length < 2 then "0" ++ s else s

/-- Hex string for an `rgb(r,g,b)` triple. -/
def rgbHex (v : Nat × Nat × Nat) : String :=
  hex2 v.1 ++ hex2 v.2.1 ++ hex2 v.2.2

/-- JS `String.prototype.trim` (kernel-friendly model over the char list). -/
def jsTrim (s : String) : String :=
  ((((s.data.dropWhile Char.isWhitespace).reverse).dropWhile Char.isWhitespace).reverse).asString

/-- JS `Math.round` (half toward positive infinity). -/
def jsRound (q : ℚ) : ℤ := Rat.floor (q + 1 / 2)

/-- `styles.fontWeight === "bold" || parseInt(styles.fontWeight, 10) >= 600`
(`NaN >= 600` is false). -/
def isBoldOf (m : ElementMeasurement) : Bool :=
  m.styles.fontWeight == "bold" ||
    match jsParseInt m.styles.fontWeight with
    | some n => decide (n ≥ 600)
    | none => false

/-- Point size derived from `styles.fontSize`:
`Math.round((parsed px or 24) * 0.55)`. -/
def fontPtOf (m : ElementMeasurement) : ℤ :=
  jsRound (((firstDigits m.styles.fontSize.data).getD 24 : ℚ) * (11 / 20))

/-- `(styles.textAlign as ...) || "left"`. -/
def alignOf (m : ElementMeasurement) : String :=
  if m.styles.textAlign = "" then "left" else m.styles.textAlign

/-- One run of a multi-run text block (the object built in `textObjects`). -/
structure Run where
  text : String
  fontSize : ℤ
  bold : Bool
  color : String
  bullet : Bool
deriving DecidableEq, Repr

/-- A placement command handed to the document serializer: either a single
styled box (`slide.addText(text, {...})` in `addMeasuredElement`) or a
multi-run text block (`slide.addText(textObjects, {...})`). -/
inductive Cmd where
  | single (x y w h : ℚ) (fontSize : ℤ) (bold : Bool) (color : String)
      (align : String) (valign : String) (wrap : Bool) (text : String) : Cmd
  | block (x y w : ℚ) (valign : String) (align : String) (wrap : Bool)
      (runs : List Run) : Cmd
deriving DecidableEq, Repr

/-- The run built for one member of a text group in the Placement Emitter:
accent color for headings, theme text color otherwise, overridden by a
successfully parsed measured `rgb(...)` color; bullet flag for
`bullet-item`. -/
def runOfElement (theme : ThemeColors) (m : ElementMeasurement) : Run :=
  let base := if m.type ∈ ["h1", "h2", "h3", "h4"] then theme.accent else theme.text
  let color :=
    match parseRgb m.styles.color with
    | some v => rgbHex v
    | none => base
  { text := m.text
    fontSize := fontPtOf m
    bold := isBoldOf m
    color := color
    bullet := m.type == "bullet-item" }

/-- `addMeasuredElement`: the single-element command(s) for a measurement,
switching on its type; the default branch emits nothing when the trimmed
text is empty. -/
def addMeasuredElementCmds (theme : ThemeColors) (m : ElementMeasurement) : List Cmd :=
  let xInch := pxToInchX m.x
  let yInch := pxToInchY m.y
  let wInch := pxToInchX m.width
  let hInch := pxToInchY m.height
  let color :=
    match parseRgb m.styles.color with
    | some v => rgbHex v
    | none => theme.text
  if m.type ∈ ["h1", "h2", "h3", "h4"] then
    [Cmd.single xInch yInch wInch hInch (fontPtOf m) true theme.accent (alignOf m) "middle" false m.text]
  else if m.type ∈ ["p", "text"] then
    [Cmd.single xInch yInch wInch hInch (fontPtOf m) (isBoldOf m) color (alignOf m) "top" true m.text]
  else if jsTrim m.text ≠ "" then
    [Cmd.single xInch yInch wInch hInch (fontPtOf m) false color (alignOf m) "top" true m.text]
  else []

/-- The Placement Emitter for one group placed at `rect`: a lone non-text
element goes through `addMeasuredElement` (at its raw converted position);
a group whose first element is text-bearing becomes one multi-run block at
the collision-adjusted position, top-aligned with wrapping. -/
def emitGroup (theme : ThemeColors) (g : RenderGroup) (rect : PlacedRect) : List Cmd :=
  match g.elements with
  | [] => []
  | first :: _ =>
    let singleCmds :=
      if g.elements.length = 1 ∧ first.type ∉ textTypes then
        addMeasuredElementCmds theme first
      else []
    let blockCmds :=
      if first.type ∈ textTypes then
        [Cmd.block rect.x rect.y rect.w "top" (alignOf first) true
          (g.elements.map (runOfElement theme))]
      else []
    singleCmds ++ blockCmds

/-- One step of the main placement loop: place the group against the
accumulated rectangles, register the result, emit its commands. -/
def packStep (theme : ThemeColors) (acc : List PlacedRect × List Cmd) (g : RenderGroup) :
    List PlacedRect × List Cmd :=
  match g.elements with
  | [] => acc
  | _ :: _ =>
    let pr := placeGroup acc.1 g
    (acc.1 ++ [pr.1], acc.2 ++ emitGroup theme g pr.1)

/-- The whole packer for one slide: bucket, group, sequence, place, emit. -/
def packSlide (theme : ThemeColors) (ms : List ElementMeasurement) : List Cmd :=
  ((renderQueue ms).foldl (packStep theme) ([], [])).2

/-- The relation claimed by the no-overlap invariant: the pair fails the
intersection test, or the later placement exhausted the attempt bound. -/
def flaggedOrDisjoint (a b : PlacedRect × Bool) : Prop :=
  overlap a.1 b.1 = false ∨ b.2 = true

/-! ### Lemmas about the Collision Resolver -/

theorem overlap_y_lt {c r : PlacedRect} (h : overlap c r = true) : c.y < r.y + r.h := by
  simp only [overlap, Bool.and_eq_true, decide_eq_true_eq] at h
  exact h.2.1

theorem overlap_comm (a b : PlacedRect) : overlap a b = overlap b a := by
  simp only [overlap]
  rw [Bool.and_comm (decide (a.x < b.x + b.w)), Bool.and_comm (decide (a.y < b.y + b.h))]

theorem passStep_preserves_true {st : PlacedRect × Bool} (r : PlacedRect) (h : st.2 = true) :
    ((passStep st r)).2 = true := by
  simp only [passStep]
  split_ifs <;> simp [h]

theorem passFold_preserves_true :
    ∀ (l : List PlacedRect) (st : PlacedRect × Bool), st.2 = true →
      (l.foldl passStep st).2 = true
  | [], _, h => h
  | r :: rest, st, h =>
    passFold_preserves_true rest (passStep st r) (passStep_preserves_true r h)

theorem passStep_of_no_overlap {c : PlacedRect} {r : PlacedRect} (h : overlap c r = false) :
    passStep (c, false) r = (c, false) := by
  unfold passStep
  simp [h]

/-- A clean pass leaves the candidate untouched and certifies that it fails
the intersection test against every placed rectangle. -/
theorem passFold_false :
    ∀ (l : List PlacedRect) (c : PlacedRect), (l.foldl passStep (c, false)).2 = false →
      l.foldl passStep (c, false) = (c, false) ∧ ∀ r ∈ l, overlap c r = false
  | [], _, _ => ⟨rfl, by simp⟩
  | r :: rest, c, h => by
    by_cases hov : overlap c r = true
    · exfalso
      have hy : c.y < r.y + r.h := overlap_y_lt hov
      have hstep : passStep (c, false) r = ({ c with y := r.y + r.h + 1 / 10 }, true) := by
        unfold passStep
        simp only [hov, if_true]
        rw [if_pos]
        exact lt_of_lt_of_le hy (by linarith)
      rw [List.foldl_cons, hstep] at h
      rw [passFold_preserves_true rest _ rfl] at h
      exact Bool.true_eq_false.mp h
    · have hov' : overlap c r = false := by
        cases hb : overlap c r
        · rfl
        · exact absurd hb hov
      rw [List.foldl_cons, passStep_of_no_overlap hov'] at h ⊢
      obtain ⟨h1, h2⟩ := passFold_false rest c h
      refine ⟨h1, ?_⟩
      intro s hs
      rcases List.mem_cons.mp hs with hs | hs
      · rw [hs]; exact hov'
      · exact h2 s hs

theorem resolveStep_succ (placed : List PlacedRect) (fuel : Nat) (c : PlacedRect) :
    resolveStep placed (fuel + 1) c =
      if (passOnce placed c).2 then resolveStep placed fuel (passOnce placed c).1
      else ((passOnce placed c).1, false) := rfl

/-- If the resolver loop exits without the exhaustion flag, the rectangle
it returns fails the intersection test against every placed rectangle. -/
theorem resolveStep_clean (placed : List PlacedRect) :
    ∀ (fuel : Nat) (c : PlacedRect), (resolveStep placed fuel c).2 = false →
      ∀ r ∈ placed, overlap (resolveStep placed fuel c).1 r = false
  | 0, c, h => by simp [resolveStep] at h
  | fuel + 1, c, h => by
    by_cases hp : (passOnce placed c).2 = true
    · have heq : resolveStep placed (fuel + 1) c = resolveStep placed fuel (passOnce placed c).1 := by
        rw [resolveStep_succ, if_pos hp]
      rw [heq] at h ⊢
      exact resolveStep_clean placed fuel _ h
    · have hp' : (passOnce placed c).2 = false := by
        cases hb : (passOnce placed c).2
        · rfl
        · exact absurd hb hp
      have heq : resolveStep placed (fuel + 1) c = ((passOnce placed c).1, false) := by
        rw [resolveStep_succ, hp']
        simp
      obtain ⟨h1, h2⟩ := passFold_false placed c hp'
      rw [heq]
      intro r hr
      have hc : (passOnce placed c).1 = c := by
        show (placed.foldl passStep (c, false)).1 = c
        rw [h1]
      rw [hc]
      exact h2 r hr

theorem placeFold_pairwise {acc : List (PlacedRect × Bool)} (g : RenderGroup)
    (h : acc.Pairwise flaggedOrDisjoint) : (placeFold acc g).Pairwise flaggedOrDisjoint := by
  unfold placeFold
  cases hel : g.elements with
  | nil => exact h
  | cons a rest =>
    rw [List.pairwise_append]
    refine ⟨h, List.pairwise_singleton _ _, ?_⟩
    intro p hp b hb
    rw [List.mem_singleton] at hb
    subst hb
    by_cases hflag : (placeGroup (acc.map Prod.fst) g).2 = true
    · exact Or.inr hflag
    · have hflag' : (placeGroup (acc.map Prod.fst) g).2 = false := by
        cases hb : (placeGroup (acc.map Prod.fst) g).2
        · rfl
        · exact absurd hb hflag
      left
      have hclean := resolveStep_clean (acc.map Prod.fst) 10 _ hflag' p.1
        (List.mem_map_of_mem Prod.fst hp)
      rw [← overlap_comm]
      exact hclean

theorem placeAll_go :
    ∀ (gs : List RenderGroup) (acc : List (PlacedRect × Bool)),
      acc.Pairwise flaggedOrDisjoint → (gs.foldl placeFold acc).Pairwise flaggedOrDisjoint
  | [], _, h => h
  | g :: gs, acc, h => placeAll_go gs (placeFold acc g) (placeFold_pairwise g h)

/-- C1: for every input measurement list, after the Collision Resolver has
processed all groups of the render queue, every pair of distinct placed
rectangles either fails the axis-aligned intersection test (open
comparisons), or the later-placed rectangle of the pair exhausted the
10-attempt adjustment bound. -/
theorem placed_rects_pairwise_disjoint_or_flagged (ms : List ElementMeasurement) :
    (placeAll (renderQueue ms)).Pairwise flaggedOrDisjoint :=
  placeAll_go (renderQueue ms) [] List.Pairwise.nil

/-! ### Concrete fixtures for witnesses and counterexamples -/

/-- The empty partial theme (all fields defaulted). -/
def noTheme : PartialTheme := ⟨none, none, none, none, none, none, none⟩

/-- The fully defaulted theme colors. -/
def theme0 : ThemeColors := resolveTheme noTheme

/-- A typical measured computed style. -/
def stylesP : Styles := ⟨"32px", "400", "rgb(1,2,3)", "left"⟩

/-- A body paragraph measurement. -/
def elP : ElementMeasurement := ⟨0, "p", 0, 0, 800, 30, "T", stylesP⟩

/-- The render group the engine builds for `[elP]`. -/
def gP : RenderGroup := ⟨[elP], 0, 0, 800, 30⟩

/-- A level-1 heading measurement whose measured weight is not bold and
whose measured color parses. -/
def elH1 : ElementMeasurement := ⟨0, "h1", 0, 0, 800, 90, "T", stylesP⟩

/-- The render group the engine builds for `[elH1]`. -/
def gH1 : RenderGroup := ⟨[elH1], 0, 0, 800, 90⟩

/-- An image measurement with whitespace-only text. -/
def elImg : ElementMeasurement := ⟨0, "img", 0, 0, 100, 100, " ", stylesP⟩

/-- The render group the engine builds for `[elImg]`. -/
def gImg : RenderGroup := ⟨[elImg], 0, 0, 100, 100⟩

/-! ### C2: determinism -/

/-- C2: the packer is deterministic — equal measurement lists and equal
(partial) themes produce identical ordered placement-command lists. -/
theorem packSlide_deterministic (t1 t2 : PartialTheme) (ms1 ms2 : List ElementMeasurement)
    (ht : t1 = t2) (hm : ms1 = ms2) :
    packSlide (resolveTheme t1) ms1 = packSlide (resolveTheme t2) ms2 := by
  subst ht
  subst hm
  rfl

/-- Witness for C2 at a concrete input. -/
theorem packSlide_deterministic_witness :
    packSlide (resolveTheme noTheme) [elP] = packSlide (resolveTheme noTheme) [elP] :=
  packSlide_deterministic noTheme noTheme [elP] [elP] rfl rfl

/-! ### C10: homogeneity of render groups -/

/-- A group is homogeneous: nonempty, and either all members are
text-bearing, or it is a singleton whose element is not text-bearing. -/
def Homog (g : RenderGroup) : Prop :=
  g.elements ≠ [] ∧
    ((∀ m ∈ g.elements, m.type ∈ textTypes) ∨
      (g.elements.length = 1 ∧ ∀ m ∈ g.elements, m.type ∉ textTypes))

theorem mkGroup_elements {cur : List ElementMeasurement} {g : RenderGroup}
    (h : mkGroup cur = some g) : g.elements = cur := by
  cases cur with
  | nil => simp [mkGroup] at h
  | cons a rest =>
    simp only [mkGroup, Option.some.injEq] at h
    rw [← h]

theorem mem_flushInto {cur : List ElementMeasurement} {q : List RenderGroup} {g : RenderGroup}
    (h : g ∈ flushInto cur q) : g ∈ q ∨ mkGroup cur = some g := by
  unfold flushInto at h
  cases hm : mkGroup cur with
  | none => rw [hm] at h; exact Or.inl h
  | some g' =>
    rw [hm] at h
    rcases List.mem_append.mp h with h | h
    · exact Or.inl h
    · rw [List.mem_singleton] at h
      exact Or.inr (congrArg some h.symm)

theorem flushInto_homog {cur : List ElementMeasurement} {q : List RenderGroup}
    (hq : ∀ g ∈ q, Homog g) (hcur : ∀ g', mkGroup cur = some g' → Homog g') :
    ∀ g ∈ flushInto cur q, Homog g := by
  intro g hg
  rcases mem_flushInto hg with h | h
  · exact hq g h
  · exact hcur g h

theorem homog_of_text {cur : List ElementMeasurement}
    (hcur : ∀ m ∈ cur, m.type ∈ textTypes) :
    ∀ g', mkGroup cur = some g' → Homog g' := by
  intro g' h
  have he := mkGroup_elements h
  constructor
  · rw [he]
    cases cur with
    | nil => simp [mkGroup] at h
    | cons a rest => exact List.cons_ne_nil a rest
  · left
    rw [he]
    exact hcur

theorem homog_of_single_nontext {m : ElementMeasurement} (hm : m.type ∉ textTypes) :
    ∀ g', mkGroup [m] = some g' → Homog g' := by
  intro g' h
  have he := mkGroup_elements h
  refine ⟨by rw [he]; exact List.cons_ne_nil m [], Or.inr ?_⟩
  rw [he]
  exact ⟨rfl, by simpa using hm⟩

/-- Invariant of the grouper walk: if the open group is all text-bearing
and the queue so far is homogeneous, every emitted group is homogeneous. -/
theorem walk_homog :
    ∀ (rest cur : List ElementMeasurement) (q : List RenderGroup),
      (∀ m ∈ cur, m.type ∈ textTypes) → (∀ g ∈ q, Homog g) →
      ∀ g ∈ walk rest cur q, Homog g
  | [], cur, q, hcur, hq => by
    intro g hg
    exact flushInto_homog hq (homog_of_text hcur) g hg
  | m :: rest, cur, q, hcur, hq => by
    intro g hg
    unfold walk at hg
    by_cases hm : m.type ∈ textTypes
    · rw [if_pos hm] at hg
      cases hlast : cur.getLast? with
      | none =>
        rw [hlast] at hg
        exact walk_homog rest [m] q (by simpa using hm) hq g hg
      | some lastM =>
        rw [hlast] at hg
        dsimp only at hg
        by_cases hw : qabs (m.width - lastM.width) < 100
        · rw [if_pos hw] at hg
          refine walk_homog rest (cur ++ [m]) q ?_ hq g hg
          intro x hx
          rcases List.mem_append.mp hx with hx | hx
          · exact hcur x hx
          · rw [List.mem_singleton] at hx
            subst hx
            exact hm
        · rw [if_neg hw] at hg
          exact walk_homog rest [m] (flushInto cur q) (by simpa using hm)
            (flushInto_homog hq (homog_of_text hcur)) g hg
    · rw [if_neg hm] at hg
      exact walk_homog rest [] (flushInto [m] (flushInto cur q)) (by simp)
        (flushInto_homog (flushInto_homog hq (homog_of_text hcur))
          (homog_of_single_nontext hm)) g hg

theorem renderQueueHomog (ms : List ElementMeasurement) :
    ∀ g ∈ renderQueue ms, Homog g := by
  intro g hg
  unfold renderQueue at hg
  rw [List.mem_insertionSort] at hg
  rw [List.mem_flatten] at hg
  obtain ⟨l, hl, hgl⟩ := hg
  rw [List.mem_map] at hl
  obtain ⟨col, _, hcol⟩ := hl
  subst hcol
  unfold groupColumn at hgl
  exact walk_homog _ [] [] (by simp) (by simp) g hgl

/-- C10: every group handed to the Global Sequencer is homogeneous — it is
either a singleton whose element's type lies outside the text-bearing set,
or all of its elements are text-bearing; hence the Placement Emitter's two
branches (single non-text command versus multi-run text block) together
cover every group. -/
theorem renderQueue_groups_homogeneous (ms : List ElementMeasurement) :
    ∀ g ∈ renderQueue ms, Homog g :=
  renderQueueHomog ms

/-- Witness for C10 at a concrete input. -/
theorem renderQueue_groups_homogeneous_witness : Homog gP :=
  renderQueue_groups_homogeneous [elP] gP (by decide)

/-! ### C8: column bucketing -/

/-- A paragraph element at x = 100. -/
def elX100 : ElementMeasurement := ⟨0, "p", 100, 0, 10, 10, "T", stylesP⟩

/-- A paragraph element at x = 140. -/
def elX140 : ElementMeasurement := ⟨1, "p", 140, 20, 10, 10, "T", stylesP⟩

/-- A paragraph element at x = 160. -/
def elX160 : ElementMeasurement := ⟨1, "p", 160, 20, 10, 10, "T", stylesP⟩

/-- C8: the Column Bucketer appends each non-structural element to the
first bucket whose anchor is strictly within 50px of its x and otherwise
opens a new bucket anchored at the element's own x; elements at x = 100
and x = 140 share a bucket, elements at x = 100 and x = 160 do not, and an
empty input yields an empty bucket list. -/
theorem insertIntoColumns_nil (m : ElementMeasurement) :
    insertIntoColumns m [] = [⟨m.x, [m]⟩] := rfl

theorem insertIntoColumns_cons (m : ElementMeasurement) (c : Column) (cs : List Column) :
    insertIntoColumns m (c :: cs) =
      if qabs (c.x - m.x) < 50 then ⟨c.x, c.eles ++ [m]⟩ :: cs
      else c :: insertIntoColumns m cs := rfl

theorem column_bucketing :
    bucket [] = [] ∧
    (∀ m : ElementMeasurement, insertIntoColumns m [] = [⟨m.x, [m]⟩]) ∧
    (∀ (m : ElementMeasurement) (c : Column) (cs : List Column),
      (qabs (c.x - m.x) < 50 → insertIntoColumns m (c :: cs) = ⟨c.x, c.eles ++ [m]⟩ :: cs) ∧
      (¬ qabs (c.x - m.x) < 50 → insertIntoColumns m (c :: cs) = c :: insertIntoColumns m cs)) ∧
    (∀ m1 m2 : ElementMeasurement, m1.type ∉ ignorableTypes → m2.type ∉ ignorableTypes →
      m1.x = 100 → m2.x = 140 → bucket [m1, m2] = [⟨100, [m1, m2]⟩]) ∧
    (∀ m1 m2 : ElementMeasurement, m1.type ∉ ignorableTypes → m2.type ∉ ignorableTypes →
      m1.x = 100 → m2.x = 160 → bucket [m1, m2] = [⟨100, [m1]⟩, ⟨160, [m2]⟩]) := by
  refine ⟨rfl, fun m => rfl, ?_, ?_, ?_⟩
  · intro m c cs
    constructor
    · intro h
      rw [insertIntoColumns_cons, if_pos h]
    · intro h
      rw [insertIntoColumns_cons, if_neg h]
  · intro m1 m2 hm1 hm2 hx1 hx2
    simp only [bucket, List.foldl_cons, List.foldl_nil, if_neg hm1, if_neg hm2,
      insertIntoColumns_nil, insertIntoColumns_cons]
    rw [hx1, hx2]
    rw [if_pos (by rw [qabs_eq_abs]; norm_num)]
    rfl
  · intro m1 m2 hm1 hm2 hx1 hx2
    simp only [bucket, List.foldl_cons, List.foldl_nil, if_neg hm1, if_neg hm2,
      insertIntoColumns_nil, insertIntoColumns_cons]
    rw [hx1, hx2]
    rw [if_neg (by rw [qabs_eq_abs]; norm_num)]

/-- Witness for C8 at concrete inputs. -/
theorem column_bucketing_witness :
    bucket [elX100, elX140] = [⟨100, [elX100, elX140]⟩] ∧
    bucket [elX100, elX160] = [⟨100, [elX100]⟩, ⟨160, [elX160]⟩] :=
  ⟨column_bucketing.2.2.2.1 elX100 elX140 (by decide) (by decide) rfl rfl,
    column_bucketing.2.2.2.2 elX100 elX160 (by decide) (by decide) rfl rfl⟩

/-! ### C7: width-change paragraph splitting -/

theorem walk_nil (cur : List ElementMeasurement) (q : List RenderGroup) :
    walk [] cur q = flushInto cur q := rfl

theorem walk_cons_eq (m : ElementMeasurement) (rest cur : List ElementMeasurement)
    (q : List RenderGroup) :
    walk (m :: rest) cur q =
      if m.type ∈ textTypes then
        match cur.getLast? with
        | none => walk rest [m] q
        | some lastM =>
          if qabs (m.width - lastM.width) < 100 then walk rest (cur ++ [m]) q
          else walk rest [m] (flushInto cur q)
      else walk rest [] (flushInto [m] (flushInto cur q)) := rfl

theorem walk_start_text (m : ElementMeasurement) (rest : List ElementMeasurement)
    (q : List RenderGroup) (hm : m.type ∈ textTypes) :
    walk (m :: rest) [] q = walk rest [m] q := by
  rw [walk_cons_eq, if_pos hm]
  rfl

theorem walk_extends (m lastM : ElementMeasurement) (cur rest : List ElementMeasurement)
    (q : List RenderGroup) (hm : m.type ∈ textTypes) (hlast : cur.getLast? = some lastM)
    (hw : qabs (m.width - lastM.width) < 100) :
    walk (m :: rest) cur q = walk rest (cur ++ [m]) q := by
  rw [walk_cons_eq, if_pos hm, hlast]
  dsimp only
  rw [if_pos hw]

theorem walk_closes (m lastM : ElementMeasurement) (cur rest : List ElementMeasurement)
    (q : List RenderGroup) (hm : m.type ∈ textTypes) (hlast : cur.getLast? = some lastM)
    (hw : ¬ qabs (m.width - lastM.width) < 100) :
    walk (m :: rest) cur q = walk rest [m] (flushInto cur q) := by
  rw [walk_cons_eq, if_pos hm, hlast]
  dsimp only
  rw [if_neg hw]

theorem flushInto_elements (a : ElementMeasurement) (as : List ElementMeasurement)
    (q : List RenderGroup) :
    (flushInto (a :: as) q).map (fun g => g.elements) =
      (q.map (fun g => g.elements)) ++ [a :: as] := by
  unfold flushInto
  cases hm : mkGroup (a :: as) with
  | none => simp [mkGroup] at hm
  | some g => simp [mkGroup_elements hm]

/-- C7: within one y-sorted column of text elements, an element extends the
open group iff its width differs from the group's most recent member by
less than 100px, else the group is closed and a new one starts; in
particular five text elements whose only large width jump is between the
second and third yield exactly the groups {1,2} and {3,4,5}. -/
theorem width_split_grouping (cx : ℚ) (e1 e2 e3 e4 e5 : ElementMeasurement)
    (ht1 : e1.type ∈ textTypes) (ht2 : e2.type ∈ textTypes) (ht3 : e3.type ∈ textTypes)
    (ht4 : e4.type ∈ textTypes) (ht5 : e5.type ∈ textTypes)
    (hsorted : List.Pairwise eleLe [e1, e2, e3, e4, e5])
    (h12 : qabs (e2.width - e1.width) < 100)
    (h23 : ¬ qabs (e3.width - e2.width) < 100)
    (h34 : qabs (e4.width - e3.width) < 100)
    (h45 : qabs (e5.width - e4.width) < 100) :
    (∀ (m lastM : ElementMeasurement) (cur rest : List ElementMeasurement)
      (q : List RenderGroup), m.type ∈ textTypes → cur.getLast? = some lastM →
      ((qabs (m.width - lastM.width) < 100 →
        walk (m :: rest) cur q = walk rest (cur ++ [m]) q) ∧
       (¬ qabs (m.width - lastM.width) < 100 →
        walk (m :: rest) cur q = walk rest [m] (flushInto cur q)))) ∧
    (groupColumn ⟨cx, [e1, e2, e3, e4, e5]⟩).map (fun g => g.elements) =
      [[e1, e2], [e3, e4, e5]] := by
  refine ⟨fun m lastM cur rest q hm hlast =>
    ⟨fun hw => walk_extends m lastM cur rest q hm hlast hw,
     fun hw => walk_closes m lastM cur rest q hm hlast hw⟩, ?_⟩
  unfold groupColumn
  dsimp only
  rw [List.Sorted.insertionSort_eq hsorted]
  rw [walk_start_text e1 _ _ ht1]
  rw [walk_extends e2 e1 [e1] _ _ ht2 rfl h12]
  simp only [List.cons_append, List.nil_append]
  rw [walk_closes e3 e2 [e1, e2] _ _ ht3 rfl h23]
  rw [walk_extends e4 e3 [e3] _ _ ht4 rfl h34]
  simp only [List.cons_append, List.nil_append]
  rw [walk_extends e5 e4 [e3, e4] _ _ ht5 rfl h45]
  simp only [List.cons_append, List.nil_append]
  rw [walk_nil]
  rw [flushInto_elements, flushInto_elements]
  rfl

/-- First element of the five-element splitting scenario. -/
def eW1 : ElementMeasurement := ⟨0, "p", 0, 0, 800, 30, "a", stylesP⟩

/-- Second element (width 790, within 100px of 800). -/
def eW2 : ElementMeasurement := ⟨1, "p", 0, 40, 790, 30, "b", stylesP⟩

/-- Third element (width 600, at least 100px away from 790). -/
def eW3 : ElementMeasurement := ⟨2, "p", 0, 80, 600, 30, "c", stylesP⟩

/-- Fourth element (width 650, within 100px of 600). -/
def eW4 : ElementMeasurement := ⟨3, "p", 0, 120, 650, 30, "d", stylesP⟩

/-- Fifth element (width 640, within 100px of 650). -/
def eW5 : ElementMeasurement := ⟨4, "p", 0, 160, 640, 30, "e", stylesP⟩

/-- Witness for C7 at a concrete five-element column. -/
theorem width_split_grouping_witness :
    (groupColumn ⟨0, [eW1, eW2, eW3, eW4, eW5]⟩).map (fun g => g.elements) =
      [[eW1, eW2], [eW3, eW4, eW5]] :=
  (width_split_grouping 0 eW1 eW2 eW3 eW4 eW5 (by decide) (by decide) (by decide)
    (by decide) (by decide) (by decide) (by decide) (by decide) (by decide) (by decide)).2

/-! ### C9: render-group bounding box -/

/-- A body paragraph of width 750 below a heading of width 800. -/
def elP750 : ElementMeasurement := ⟨1, "p", 0, 100, 750, 30, "T", stylesP⟩

/-- Counterexample for C9: the group width is the maximum over members of
type p/text/bullet-item only, not over all text-bearing members — a group
of a heading (width 800, text-bearing) and a paragraph (width 750) gets
width 750, while the maximum width among its text-bearing members is 800. -/
theorem group_width_ignores_heading_counterexample :
    (mkGroup [elH1, elP750]).map (fun g => g.w) = some 750 ∧
    elH1.type ∈ textTypes ∧
    listMax ((([elH1, elP750].filter (fun i => i.type ∈ textTypes)).map (fun i => i.width))) = 800 ∧
    (750 : ℚ) ≠ 800 := by
  refine ⟨rfl, by decide, by decide, by decide⟩

/-- C9 (amended): a `RenderGroup` built from a non-empty run anchors at the
first element's top-left, spans `(last.y + last.height) − first.y` pixels
floored at 20, and its width is the maximum width among members of type
p/text/bullet-item, falling back to the maximum over all members when there
are none. -/
theorem group_fields_amended (first : ElementMeasurement) (rest : List ElementMeasurement) :
    mkGroup (first :: rest) =
      some
        { elements := first :: rest
          x := first.x
          y := first.y
          w :=
            listMax
              ((if ((first :: rest).filter (fun i => i.type ∈ pTypes)).isEmpty
                then first :: rest
                else (first :: rest).filter (fun i => i.type ∈ pTypes)).map (fun i => i.width))
          hWeb :=
            qmax
              ((((first :: rest).getLast (List.cons_ne_nil first rest)).y +
                  ((first :: rest).getLast (List.cons_ne_nil first rest)).height) -
                first.y)
              20 } := rfl

/-! ### C6: the Global Sequencer's comparator -/

/-- A group at (x, y) = (100, 0). -/
def gSeqA : RenderGroup := ⟨[], 100, 0, 0, 0⟩

/-- A group at (x, y) = (0, 12). -/
def gSeqB : RenderGroup := ⟨[], 0, 12, 0, 0⟩

/-- A group at (x, y) = (50, 6). -/
def gSeqC : RenderGroup := ⟨[], 50, 6, 0, 0⟩

/-- Counterexample for C6: the sequencer's comparison is not transitive
(hence not a total order): A precedes B (y distance 12, y order), B
precedes C (y distance 6, x order), yet A does not precede C (y distance
6, x order fails). -/
theorem group_order_not_transitive :
    groupLe gSeqA gSeqB ∧ groupLe gSeqB gSeqC ∧ ¬ groupLe gSeqA gSeqC := by
  refine ⟨by decide, by decide, by decide⟩

/-- C6 (amended): the sequencer orders groups by the comparator "y
ascending, x ascending when the y distance is under 10px"; the comparator
is total (any two groups are comparable) and the stable sort preserves the
relative order of groups with identical (y, x), but the comparator is not
transitive, so it is not a total order. -/
theorem group_order_total_and_stable :
    (∀ a b : RenderGroup, groupLe a b ∨ groupLe b a) ∧
    (∀ (l : List RenderGroup) (a b : RenderGroup), a.y = b.y → a.x = b.x →
      List.Sublist [a, b] l → List.Sublist [a, b] (l.insertionSort groupLe)) := by
  constructor
  · intro a b
    unfold groupLe
    by_cases h : qabs (a.y - b.y) < 10
    · rw [if_pos h, if_pos (by rw [qabs_sub_comm]; exact h)]
      exact le_total a.x b.x
    · rw [if_neg h, if_neg (by rw [qabs_sub_comm]; exact h)]
      exact le_total a.y b.y
  · intro l a b hy hx hsub
    refine List.pair_sublist_insertionSort ?_ hsub
    unfold groupLe
    rw [hy, sub_self]
    rw [if_pos (by rw [qabs_eq_abs, abs_zero]; norm_num)]
    exact le_of_eq hx

/-- A group at (x, y) = (5, 5) holding one element. -/
def gDup1 : RenderGroup := ⟨[elP], 5, 5, 1, 1⟩

/-- A distinct group at the same (x, y) = (5, 5). -/
def gDup2 : RenderGroup := ⟨[], 5, 5, 2, 2⟩

/-- Witness for C6's amended statement at concrete groups. -/
theorem group_order_total_and_stable_witness :
    (groupLe gSeqA gSeqB ∨ groupLe gSeqB gSeqA) ∧
    List.Sublist [gDup1, gDup2] ([gDup1, gDup2].insertionSort groupLe) :=
  ⟨group_order_total_and_stable.1 gSeqA gSeqB,
    group_order_total_and_stable.2 [gDup1, gDup2] gDup1 gDup2 rfl rfl (List.Sublist.refl _)⟩

/-! ### C4: the collision shift -/

theorem pxToInchY_pos {q : ℚ} (h : 0 < q) : 0 < pxToInchY q := by
  unfold pxToInchY RENDER_HEIGHT_PX SLIDE_HEIGHT_INCHES
  exact mul_pos (div_pos h (by norm_num)) (by norm_num)

theorem passOnce_single_eq (r : PlacedRect) (c : PlacedRect) :
    passOnce [r] c = passStep (c, false) r := rfl

theorem passStep_bump {c r : PlacedRect} (h : overlap c r = true) :
    passStep (c, false) r = ({ c with y := r.y + r.h + 1 / 10 }, true) := by
  unfold passStep
  rw [if_pos h]
  dsimp only
  rw [if_pos]
  exact lt_of_lt_of_le (overlap_y_lt h) (by linarith)

theorem overlap_eq_true {c r : PlacedRect} (h1 : c.x < r.x + r.w) (h2 : r.x < c.x + c.w)
    (h3 : c.y < r.y + r.h) (h4 : r.y < c.y + c.h) : overlap c r = true := by
  simp only [overlap, Bool.and_eq_true, decide_eq_true_eq, gt_iff_lt]
  exact ⟨⟨h1, h2⟩, h3, h4⟩

theorem overlap_false_of_below {c r : PlacedRect} (h : r.y + r.h ≤ c.y) :
    overlap c r = false := by
  unfold overlap
  rw [decide_eq_false (not_lt.mpr h)]
  simp

theorem resolveStep_clean_exit (placed : List PlacedRect) (c : PlacedRect)
    (h : (passOnce placed c).2 = false) :
    ∀ fuel : Nat, fuel ≠ 0 → resolveStep placed fuel c = ((passOnce placed c).1, false)
  | 0, h0 => absurd rfl h0
  | fuel + 1, _ => by
    rw [resolveStep_succ, h]
    simp

theorem placeGroup_nil (g : RenderGroup) :
    placeGroup [] g =
      ({ x := pxToInchX g.x, y := pxToInchY g.y, w := pxToInchX g.w,
          h := pxToInchY g.hWeb * (8 / 5) }, false) := by
  unfold placeGroup
  refine resolveStep_clean_exit [] _ ?_ 10 (by norm_num)
  rfl

/-- Placing a group against one placed rectangle it collides with: one bump
to just below that rectangle, then a clean re-check. -/
theorem placeGroup_single (r : PlacedRect) (g : RenderGroup)
    (hov : overlap
      ({ x := pxToInchX g.x, y := pxToInchY g.y, w := pxToInchX g.w,
         h := pxToInchY g.hWeb * (8 / 5) } : PlacedRect) r = true) :
    placeGroup [r] g =
      ({ x := pxToInchX g.x, y := r.y + r.h + 1 / 10, w := pxToInchX g.w,
         h := pxToInchY g.hWeb * (8 / 5) }, false) := by
  have hb : passOnce [r]
      ({ x := pxToInchX g.x, y := pxToInchY g.y, w := pxToInchX g.w,
         h := pxToInchY g.hWeb * (8 / 5) } : PlacedRect) =
      ({ x := pxToInchX g.x, y := r.y + r.h + 1 / 10, w := pxToInchX g.w,
         h := pxToInchY g.hWeb * (8 / 5) }, true) := by
    rw [passOnce_single_eq, passStep_bump hov]
  have hc : passOnce [r]
      ({ x := pxToInchX g.x, y := r.y + r.h + 1 / 10, w := pxToInchX g.w,
         h := pxToInchY g.hWeb * (8 / 5) } : PlacedRect) =
      ({ x := pxToInchX g.x, y := r.y + r.h + 1 / 10, w := pxToInchX g.w,
         h := pxToInchY g.hWeb * (8 / 5) }, false) := by
    rw [passOnce_single_eq,
      passStep_of_no_overlap (overlap_false_of_below (by dsimp only; linarith))]
  show resolveStep [r] 10 _ = _
  rw [show (10 : Nat) = 9 + 1 from rfl, resolveStep_succ, hb]
  dsimp only
  rw [if_pos rfl, resolveStep_clean_exit [r] _ (by rw [hc]) 9 (by norm_num), hc]

theorem placeFold_cons {g : RenderGroup} (acc : List (PlacedRect × Bool))
    (a : ElementMeasurement) (rs : List ElementMeasurement) (he : g.elements = a :: rs) :
    placeFold acc g = acc ++ [placeGroup (acc.map Prod.fst) g] := by
  unfold placeFold
  rw [he]

theorem placeAll_two {g1 g2 : RenderGroup}
    (a1 : ElementMeasurement) (r1 : List ElementMeasurement)
    (a2 : ElementMeasurement) (r2 : List ElementMeasurement)
    (he1 : g1.elements = a1 :: r1) (he2 : g2.elements = a2 :: r2) :
    placeAll [g1, g2] = [placeGroup [] g1, placeGroup [(placeGroup [] g1).1] g2] := by
  unfold placeAll
  rw [List.foldl_cons, placeFold_cons [] a1 r1 he1, List.foldl_cons,
    placeFold_cons _ a2 r2 he2, List.foldl_nil]
  simp

/-- C4 (amended): on a collision the resolver moves the candidate's `y` to
`colliding.y + colliding.h + 0.1` target units and re-checks; for two
nonempty groups starting at the same pixel `y` with overlapping horizontal
footprints and positive heights, the second is placed exactly `first
estimated height + 0.1` units below its initial position — i.e. the shift
equals `first.h + 0.1`, not `(first.h + 0.1) − second.y`. -/
theorem collision_shift_amended (g1 g2 : RenderGroup)
    (a1 : ElementMeasurement) (r1 : List ElementMeasurement)
    (a2 : ElementMeasurement) (r2 : List ElementMeasurement)
    (he1 : g1.elements = a1 :: r1) (he2 : g2.elements = a2 :: r2)
    (hy : g1.y = g2.y) (hh1 : 0 < g1.hWeb) (hh2 : 0 < g2.hWeb)
    (hx1 : pxToInchX g2.x < pxToInchX g1.x + pxToInchX g1.w)
    (hx2 : pxToInchX g1.x < pxToInchX g2.x + pxToInchX g2.w) :
    (∀ c r : PlacedRect, overlap c r = true →
      passStep (c, false) r = ({ c with y := r.y + r.h + 1 / 10 }, true)) ∧
    (placeAll [g1, g2]).map (fun p => p.1.y) =
      [pxToInchY g2.y, pxToInchY g2.y + (pxToInchY g1.hWeb * (8 / 5) + 1 / 10)] := by
  refine ⟨fun c r h => passStep_bump h, ?_⟩
  rw [placeAll_two a1 r1 a2 r2 he1 he2, placeGroup_nil g1]
  dsimp only
  rw [placeGroup_single _ g2 ?hov]
  case hov =>
    apply overlap_eq_true
    · exact hx1
    · exact hx2
    · dsimp only
      rw [hy]
      exact lt_add_of_pos_right _ (mul_pos (pxToInchY_pos hh1) (by norm_num))
    · dsimp only
      rw [hy]
      exact lt_add_of_pos_right _ (mul_pos (pxToInchY_pos hh2) (by norm_num))
  simp only [List.map_cons, List.map_nil]
  rw [hy, add_assoc]

/-- A paragraph measurement spanning y 216..432 (used for the concrete
collision scenario). -/
def el216 : ElementMeasurement := ⟨0, "p", 0, 216, 960, 216, "T", stylesP⟩

/-- The render group the engine builds for `[el216]`. -/
def gCol : RenderGroup := ⟨[el216], 0, 216, 960, 216⟩

/-- Witness for C4's amended statement at a concrete colliding pair. -/
theorem collision_shift_amended_witness :
    (placeAll [gCol, gCol]).map (fun p => p.1.y) =
      [pxToInchY gCol.y, pxToInchY gCol.y + (pxToInchY gCol.hWeb * (8 / 5) + 1 / 10)] :=
  (collision_shift_amended gCol gCol el216 [] el216 [] rfl rfl rfl (by decide) (by decide)
    (by decide) (by decide)).2

/-- Counterexample for C4: for two identical groups starting at pixel
y = 216 (1.125 units), the second lands at 3.025 units, a downward shift
of 1.9 = first.h + 0.1 units, which differs from the claimed
`(first.h + 0.1) − second.y` = 0.775 units. -/
theorem collision_shift_formula_counterexample :
    (placeAll [gCol, gCol]).map (fun p => p.1.y) = [9 / 8, 121 / 40] ∧
    (placeAll [gCol, gCol]).map (fun p => p.1.h) = [9 / 5, 9 / 5] ∧
    (121 / 40 : ℚ) - pxToInchY gCol.y = 9 / 5 + 1 / 10 ∧
    (121 / 40 : ℚ) - pxToInchY gCol.y ≠ (9 / 5 + 1 / 10) - pxToInchY gCol.y := by
  refine ⟨by decide, by decide, by decide, by decide⟩

/-! ### C5: heading and body styling -/

theorem emitGroup_cons {g : RenderGroup} (theme : ThemeColors) (rect : PlacedRect)
    (first : ElementMeasurement) (rest : List ElementMeasurement)
    (hel : g.elements = first :: rest) :
    emitGroup theme g rect =
      (if g.elements.length = 1 ∧ first.type ∉ textTypes then
        addMeasuredElementCmds theme first
      else []) ++
      (if first.type ∈ textTypes then
        [Cmd.block rect.x rect.y rect.w "top" (alignOf first) true
          (g.elements.map (runOfElement theme))]
      else []) := by
  unfold emitGroup
  rw [hel]

/-- Counterexample for C5: a level-1 heading whose measured weight is 400
and whose measured color parses as `rgb(1,2,3)` is emitted as a run that is
not bold, in a block that is top-aligned (not centered), with the parsed
color `010203` rather than the theme accent `60A5FA`. -/
theorem heading_run_not_bold_counterexample :
    packSlide theme0 [elH1] =
      [Cmd.block 0 0 (25 / 6) "top" "left" true
        [{ text := "T", fontSize := 18, bold := false, color := "010203", bullet := false }]] ∧
    theme0.accent = "60A5FA" ∧ ("010203" : String) ≠ "60A5FA" := by
  refine ⟨by decide, rfl, by decide⟩

/-- C5 (amended): a group whose first element is text-bearing is emitted as
one multi-run text block at the collision-adjusted position, top-aligned
with wrapping (this covers headings and body text alike); a heading run is
bold exactly when its measured weight is bold/≥600, and its color is the
parsed measured `rgb(...)` color, falling back to the theme accent only
when parsing fails. -/
theorem heading_style_amended (theme : ThemeColors) (g : RenderGroup) (rect : PlacedRect)
    (first : ElementMeasurement) (rest : List ElementMeasurement)
    (hel : g.elements = first :: rest) (ht : first.type ∈ textTypes) :
    emitGroup theme g rect =
      [Cmd.block rect.x rect.y rect.w "top" (alignOf first) true
        (g.elements.map (runOfElement theme))] ∧
    (∀ m : ElementMeasurement, m.type ∈ ["h1", "h2", "h3", "h4"] →
      (runOfElement theme m).bold = isBoldOf m ∧
      (runOfElement theme m).color =
        (match parseRgb m.styles.color with
         | some v => rgbHex v
         | none => theme.accent)) := by
  constructor
  · rw [emitGroup_cons theme rect first rest hel]
    rw [if_neg (fun h => h.2 ht), if_pos ht]
    rw [List.nil_append]
  · intro m hm
    refine ⟨rfl, ?_⟩
    unfold runOfElement
    dsimp only
    rw [if_pos hm]

/-- An arbitrary placement rectangle used for witnesses. -/
def rectH : PlacedRect := ⟨0, 0, 25 / 6, 0⟩

/-- Witness for C5's amended statement at a concrete heading group. -/
theorem heading_style_amended_witness :
    emitGroup theme0 gH1 rectH =
      [Cmd.block rectH.x rectH.y rectH.w "top" (alignOf elH1) true
        (gH1.elements.map (runOfElement theme0))] :=
  (heading_style_amended theme0 gH1 rectH elH1 [] rfl (by decide)).1

/-! ### C3: no group dropped? -/

theorem placeAll_length_go :
    ∀ (gs : List RenderGroup) (acc : List (PlacedRect × Bool)),
      (∀ g ∈ gs, g.elements ≠ []) → (gs.foldl placeFold acc).length = acc.length + gs.length
  | [], acc, _ => by simp
  | g :: gs, acc, h => by
    rw [List.foldl_cons]
    obtain ⟨a, rs, he⟩ := List.exists_cons_of_ne_nil (h g (List.mem_cons_self g gs))
    rw [placeFold_cons acc a rs he]
    rw [placeAll_length_go gs _ (fun x hx => h x (List.mem_cons_of_mem g hx))]
    simp only [List.length_append, List.length_cons, List.length_nil]
    omega

theorem addMeasured_default_iff (theme : ThemeColors) (m : ElementMeasurement)
    (hnt : m.type ∉ textTypes) :
    addMeasuredElementCmds theme m = [] ↔ jsTrim m.text = "" := by
  have h1 : m.type ∉ (["h1", "h2", "h3", "h4"] : List String) := by
    intro hm
    apply hnt
    simp only [textTypes, List.mem_cons, List.not_mem_nil, or_false] at hm ⊢
    tauto
  have h2 : m.type ∉ (["p", "text"] : List String) := by
    intro hm
    apply hnt
    simp only [textTypes, List.mem_cons, List.not_mem_nil, or_false] at hm ⊢
    tauto
  simp only [addMeasuredElementCmds]
  rw [if_neg h1, if_neg h2]
  by_cases ht : jsTrim m.text = ""
  · rw [if_neg (fun hne => hne ht)]
    simp [ht]
  · rw [if_pos ht]
    simp [ht]

/-- Counterexample for C3: a slide consisting of one image element with
whitespace-only text yields one render group but zero placement commands —
the group is dropped from emission. -/
theorem empty_text_image_group_emits_nothing :
    packSlide theme0 [elImg] = [] ∧ renderQueue [elImg] = [gImg] := by
  refine ⟨by decide, by decide⟩

/-- C3 (amended): every group is registered as a placed rectangle, and
every group whose first element is text-bearing emits a placement command;
but a singleton non-text group emits a command only when its trimmed text
is nonempty — non-text groups with empty or whitespace-only text are
dropped from emission. -/
theorem emission_totality_amended (theme : ThemeColors) (ms : List ElementMeasurement) :
    (placeAll (renderQueue ms)).length = (renderQueue ms).length ∧
    ∀ g ∈ renderQueue ms, ∀ rect : PlacedRect,
      ∀ (first : ElementMeasurement) (rest : List ElementMeasurement),
      g.elements = first :: rest →
      (first.type ∈ textTypes → emitGroup theme g rect ≠ []) ∧
      (first.type ∉ textTypes → (emitGroup theme g rect = [] ↔ jsTrim first.text = "")) := by
  constructor
  · unfold placeAll
    rw [placeAll_length_go (renderQueue ms) [] (fun g hg => (renderQueueHomog ms g hg).1)]
    simp
  · intro g hg rect first rest hel
    constructor
    · intro ht
      rw [emitGroup_cons theme rect first rest hel]
      intro hcontra
      rw [List.append_eq_nil] at hcontra
      have := hcontra.2
      rw [if_pos ht] at this
      exact List.cons_ne_nil _ _ this
    · intro hnt
      have hhom := renderQueueHomog ms g hg
      have hsingle : rest = [] := by
        rcases hhom.2 with halltext | ⟨hlen, _⟩
        · exact absurd (halltext first (by rw [hel]; exact List.mem_cons_self _ _)) hnt
        · rw [hel] at hlen
          simpa using hlen
      subst hsingle
      rw [emitGroup_cons theme rect first [] hel]
      rw [if_pos ⟨by rw [hel]; rfl, hnt⟩, if_neg hnt]
      rw [List.append_nil]
      exact addMeasured_default_iff theme first hnt

/-- Witness for C3's amended statement at the concrete whitespace image. -/
theorem emission_totality_amended_witness :
    emitGroup theme0 gImg rectH = [] ↔ jsTrim elImg.text = "" :=
  ((emission_totality_amended theme0 [elImg]).2 gImg (by decide) rectH elImg [] rfl).2
    (by decide)

end Packer
